import Mathlib

/-! # MongoDB connection provider (`feature/infrastructure/database/mongo/mongodb.go`)

A shallow embedding of the connection factory `NewMongoDatabase`, the context
binder `Connection.WithContext` / `ForContext` and the gin middleware
`Connection.Connect`, followed by the properties proved about them.

Conventions of the embedding:

* a Go pointer that may be nil is an `Option`; `*mongo.Client` is `ClientPtr`,
  `none` the nil pointer and `some a` the client living at address `a`;
* a Go `interface{}` value is an `Iface`, a value tagged with its dynamic type,
  so that `==` on interfaces (same dynamic type and same value) is `=`;
* a panic is `Except.error` carrying the panic value;
* `log.Fatal` (print, then `os.Exit(1)`) is the terminal result `Result.fatal`;
* the MongoDB driver is an explicit parameter `Driver` giving the outcome of
  `mongo.Connect` on a URI and of `Client.Ping` on a client.
-/

namespace Mongo

/-! ## Go values and `context.Context` -/

/-- Pointer to a driver client, `*mongo.Client`; `none` is the nil pointer. -/
abbrev ClientPtr := Option Nat

/-- Go interface value, tagged with its dynamic type.  `key` is the package
type `type key string`, `str` the predeclared `string`, `client` is
`*mongo.Client`, `other t v` a value `v` of any further comparable type `t`. -/
inductive Iface where
  | nil
  | key (s : String)
  | str (s : String)
  | client (p : ClientPtr)
  | other (typ : Nat) (val : Nat)
  deriving DecidableEq, Repr

/-- The constant `mongoClient key = "mongo_client"`, as an interface value. -/
def mongoClient : Iface := Iface.key "mongo_client"

/-- Non-nil values of `context.Context`: the empty context
(`context.Background()`, `context.TODO()`), a `valueCtx` made by
`context.WithValue`, and a cancellation wrapper (`WithCancel`, `WithDeadline`,
`WithTimeout`), which stores no user value. -/
inductive Context where
  | emptyCtx
  | valueCtx (parent : Context) (k : Iface) (val : Iface)
  | cancelCtx (parent : Context)
  deriving DecidableEq, Repr

/-- Method `ctx.Value(key)`: the innermost value stored under an equal key on
the chain, the nil interface when there is none. -/
def Context.Value : Context → Iface → Iface
  | Context.emptyCtx, _ => Iface.nil
  | Context.valueCtx parent k val, key => if k = key then val else parent.Value key
  | Context.cancelCtx parent, key => parent.Value key

/-- Function `context.WithValue(parent, key, val)`; it panics on a nil key. -/
def WithValue (parent : Context) (key val : Iface) : Except String Context :=
  if key = Iface.nil then Except.error "nil key"
  else Except.ok (Context.valueCtx parent key val)

/-! ## Connection and the context binder -/

/-- The struct `Connection`; a `*Connection` is an `Option Connection`. -/
structure Connection where
  client : ClientPtr
  deriving DecidableEq, Repr

/-- Getter `(*Connection).Client`. -/
def Connection.Client (c : Connection) : ClientPtr := c.client

/-- Panic value of `ForContext`. -/
def missingClientPanic : String := "ctx passing is not contain mongodb client"

/-- Line printed by `log.Println` when the receiver is nil in `WithContext` and `Connect`. -/
def nilConnectionWarning : String := "Warning: Connection is nil"

/-- Method `(*Connection).WithContext`: the returned context together with
the lines logged. -/
def Connection.WithContext (m : Option Connection) (ctx : Context) :
    Except String (Context × List String) :=
  match m with
  | some conn =>
    match WithValue ctx mongoClient (Iface.client conn.client) with
    | Except.ok ctx1 => Except.ok (ctx1, [])
    | Except.error p => Except.error p
  | none => Except.ok (ctx, [nilConnectionWarning])

/-- Function `ForContext`: the comma-ok assertion
`ctx.Value(mongoClient).(*mongo.Client)`, and a panic when it fails. -/
def ForContext (ctx : Context) : Except String ClientPtr :=
  match ctx.Value mongoClient with
  | Iface.client p => Except.ok p
  | _ => Except.error missingClientPanic

/-- No `valueCtx` on the chain of `ctx` has the key `mongoClient`: no
connection was ever bound on this chain. -/
def NeverBound : Context → Prop
  | Context.emptyCtx => True
  | Context.valueCtx parent k _ => k ≠ mongoClient ∧ NeverBound parent
  | Context.cancelCtx parent => NeverBound parent

/-- Decision procedure for `NeverBound`, by recursion on the chain. -/
def NeverBound.dec : (ctx : Context) → Decidable (NeverBound ctx)
  | Context.emptyCtx => isTrue True.intro
  | Context.valueCtx parent k _ =>
    match decEq k mongoClient, NeverBound.dec parent with
    | isTrue hk, _ => isFalse (fun h => h.1 hk)
    | isFalse _, isFalse hp => isFalse (fun h => hp h.2)
    | isFalse hk, isTrue hp => isTrue ⟨hk, hp⟩
  | Context.cancelCtx parent => NeverBound.dec parent

instance (ctx : Context) : Decidable (NeverBound ctx) := NeverBound.dec ctx

/-! ## The connection factory `NewMongoDatabase` -/

/-- Configuration fields of `Target`; the lifecycle `Lc` is threaded through
`NewMongoDatabase` as the list of registered hooks, and the logger is only
used inside the stop hook. -/
structure Target where
  MongoURL : String
  DBHost : String
  DBPort : String
  DBUser : String
  DBPass : String
  deriving DecidableEq, Repr

/-- The constants `constant.DBHost` and `constant.DBPort`, whose declaration
is outside the translated sources; they are a parameter of the factory. -/
structure Constants where
  DBHost : String
  DBPort : String
  deriving DecidableEq, Repr

/-- Modelled from the spec: `config.DefaultIfEmpty` is called by
`NewMongoDatabase` but its body is not among the sources; the spec says that
an absent host or port "triggers built-in defaults" and that the "defaults
[are] substituted before string construction", so an empty value is replaced
by the default and any other value is kept. -/
def DefaultIfEmpty (value defaultValue : String) : String :=
  if value = "" then defaultValue else value

/-- Lines 39 to 51 of `NewMongoDatabase`: the local `mongodbURI` once both
`fmt.Sprintf` assignments have run. -/
def mongodbURI (k : Constants) (target : Target) : String :=
  let dbHost := target.DBHost
  let dbPort := target.DBPort
  let dbUser := target.DBUser
  let dbPass := target.DBPass
  let dbHost := DefaultIfEmpty dbHost k.DBHost
  let dbPort := DefaultIfEmpty dbPort k.DBPort
  let uri := "mongodb://" ++ dbUser ++ ":" ++ dbPass ++ "@" ++ dbHost ++ ":" ++ dbPort
  if dbUser = "" ∨ dbPass = "" then "mongodb://" ++ dbHost ++ ":" ++ dbPort else uri

/-- The MongoDB driver as seen by the factory: `Connect uri` is the result of
`mongo.Connect(ctx, options.Client().ApplyURI(uri))`, `Ping c` the error of
`c.Ping(ctx, nil)`, `none` when the ping succeeds. -/
structure Driver where
  Connect : String → Except String ClientPtr
  Ping : ClientPtr → Option String

/-- A registered `fx.Hook` with only `OnStop` set: on stop it logs `info`
and disconnects `client`. -/
structure Hook where
  info : String
  client : ClientPtr
  deriving DecidableEq, Repr

/-- How a call of `NewMongoDatabase` ends: it returns `(conn, err)` to its
caller, or `log.Fatal` ends the process with the error printed. -/
inductive Result where
  | returned (conn : Option Connection) (err : Option String)
  | fatal (err : String)
  deriving DecidableEq, Repr

/-- Observable record of one call of `NewMongoDatabase`: the URI handed to
the driver (`none` when the driver is never called), the lifecycle hooks
after the call, the lines printed on standard output, and the result. -/
structure Run where
  uri : Option String
  lc : List Hook
  stdout : List String
  result : Result
  deriving DecidableEq, Repr

/-- The factory `NewMongoDatabase`, run against driver `drv` with the hooks
`lc` already registered on `target.Lc`. -/
def NewMongoDatabase (k : Constants) (drv : Driver) (target : Target) (lc : List Hook) : Run :=
  if target.MongoURL = "" then
    { uri := none, lc := lc, stdout := [], result := Result.returned none none }
  else
    let uri := mongodbURI k target
    match drv.Connect uri with
    | Except.error err =>
      { uri := some uri, lc := lc, stdout := [], result := Result.fatal err }
    | Except.ok client =>
      match drv.Ping client with
      | some err =>
        { uri := some uri, lc := lc, stdout := [], result := Result.fatal err }
      | none =>
        { uri := some uri
          lc := lc ++ [{ info := "Disconnect MongoDB server at " ++ target.MongoURL ++ ".",
                         client := client }]
          stdout := ["Connected to MongoDB!"]
          result := Result.returned (some { client := client }) none }

/-- Substring test on strings: the characters of `sub` occur contiguously in `s`. -/
def HasSubstring (s sub : String) : Prop := List.IsInfix sub.toList s.toList

instance (s sub : String) : Decidable (HasSubstring s sub) := by
  unfold HasSubstring; infer_instance

/-! ## The gin middleware `Connection.Connect` -/

/-- The part of `http.Request` the middleware can touch: its context, and
two further fields standing for everything `Request.WithContext` copies. -/
structure Request where
  ctx : Context
  Method : String
  RequestURI : String
  deriving DecidableEq, Repr

/-- Method `(*http.Request).WithContext`: a copy of the request with its
context replaced. -/
def Request.WithContext (r : Request) (ctx : Context) : Request :=
  { r with ctx := ctx }

/-- The field of `gin.Context` the middleware reads and writes. -/
structure GinContext where
  Request : Request
  deriving DecidableEq, Repr

/-- What a handler does that is visible outside it: a line logged, or a call
of `c.Next()`, recorded with the request the downstream handlers then see. -/
inductive Effect where
  | log (line : String)
  | next (seen : Request)
  deriving DecidableEq, Repr

/-- The handler returned by `(*Connection).Connect`, applied to `c`: the gin
context after the handler body and the effects in the order they happen. -/
def Connection.Connect (m : Option Connection) (c : GinContext) :
    Except String (GinContext × List Effect) :=
  match m with
  | some conn =>
    match WithValue c.Request.ctx mongoClient (Iface.client conn.client) with
    | Except.ok ctx =>
      let c1 : GinContext := { c with Request := c.Request.WithContext ctx }
      Except.ok (c1, [Effect.next c1.Request])
    | Except.error p => Except.error p
  | none =>
    Except.ok (c, [Effect.log nilConnectionWarning, Effect.next c.Request])

/-- Number of `c.Next()` calls among the effects. -/
def nextCalls : List Effect → Nat
  | [] => 0
  | Effect.next _ :: es => nextCalls es + 1
  | Effect.log _ :: es => nextCalls es

/-! ## Concrete inputs used to instantiate the results -/

/-- Sample built-in defaults for host and port. -/
def sampleConstants : Constants := { DBHost := "localhost", DBPort := "27017" }

/-- A driver whose database is reachable: connect yields the client at
address 1 and every ping succeeds. -/
def reachableDriver : Driver :=
  { Connect := fun _ => Except.ok (some 1), Ping := fun _ => none }

/-- A driver whose connect step fails. -/
def unreachableDriver : Driver :=
  { Connect := fun _ => Except.error "server selection error", Ping := fun _ => none }

/-- A driver whose connect step succeeds and whose ping fails. -/
def silentDriver : Driver :=
  { Connect := fun _ => Except.ok (some 1), Ping := fun _ => some "context deadline exceeded" }

/-! ## Auxiliary lemmas -/

theorem uri_of_configured (k : Constants) (drv : Driver) (t : Target) (lc : List Hook)
    (h : t.MongoURL ≠ "") : (NewMongoDatabase k drv t lc).uri = some (mongodbURI k t) := by
  unfold NewMongoDatabase
  rw [if_neg h]
  cases hc : drv.Connect (mongodbURI k t) with
  | error e => simp [hc]
  | ok c =>
    cases hp : drv.Ping c with
    | none => simp [hc, hp]
    | some e => simp [hc, hp]

theorem run_of_unconfigured (k : Constants) (drv : Driver) (t : Target) (lc : List Hook)
    (h : t.MongoURL = "") :
    NewMongoDatabase k drv t lc
      = { uri := none, lc := lc, stdout := [], result := Result.returned none none } := by
  unfold NewMongoDatabase
  rw [if_pos h]

theorem run_of_connect_error (k : Constants) (drv : Driver) (t : Target) (lc : List Hook)
    (e : String) (h : t.MongoURL ≠ "") (hc : drv.Connect (mongodbURI k t) = Except.error e) :
    NewMongoDatabase k drv t lc
      = { uri := some (mongodbURI k t), lc := lc, stdout := [], result := Result.fatal e } := by
  unfold NewMongoDatabase
  rw [if_neg h]
  simp only [hc]

theorem run_of_ping_error (k : Constants) (drv : Driver) (t : Target) (lc : List Hook)
    (c : ClientPtr) (e : String) (h : t.MongoURL ≠ "")
    (hc : drv.Connect (mongodbURI k t) = Except.ok c) (hp : drv.Ping c = some e) :
    NewMongoDatabase k drv t lc
      = { uri := some (mongodbURI k t), lc := lc, stdout := [], result := Result.fatal e } := by
  unfold NewMongoDatabase
  rw [if_neg h]
  simp only [hc, hp]

theorem run_of_connected (k : Constants) (drv : Driver) (t : Target) (lc : List Hook)
    (c : ClientPtr) (h : t.MongoURL ≠ "")
    (hc : drv.Connect (mongodbURI k t) = Except.ok c) (hp : drv.Ping c = none) :
    NewMongoDatabase k drv t lc
      = { uri := some (mongodbURI k t)
          lc := lc ++ [{ info := "Disconnect MongoDB server at " ++ t.MongoURL ++ ".",
                         client := c }]
          stdout := ["Connected to MongoDB!"]
          result := Result.returned (some { client := c }) none } := by
  unfold NewMongoDatabase
  rw [if_neg h]
  simp only [hc, hp]

theorem mongodbURI_with_credentials (k : Constants) (t : Target)
    (hu : t.DBUser ≠ "") (hp : t.DBPass ≠ "") :
    mongodbURI k t = "mongodb://" ++ t.DBUser ++ ":" ++ t.DBPass ++ "@"
      ++ DefaultIfEmpty t.DBHost k.DBHost ++ ":" ++ DefaultIfEmpty t.DBPort k.DBPort := by
  simp [mongodbURI, hu, hp]

theorem mongodbURI_without_credentials (k : Constants) (t : Target)
    (h : t.DBUser = "" ∨ t.DBPass = "") :
    mongodbURI k t = "mongodb://" ++ DefaultIfEmpty t.DBHost k.DBHost ++ ":"
      ++ DefaultIfEmpty t.DBPort k.DBPort := by
  unfold mongodbURI
  simp only []
  rw [if_pos h]

theorem value_of_neverBound (ctx : Context) (h : NeverBound ctx) :
    ctx.Value mongoClient = Iface.nil := by
  induction ctx with
  | emptyCtx => rfl
  | valueCtx parent k val ih =>
    obtain ⟨hk, hp⟩ := h
    simp [Context.Value, hk, ih hp]
  | cancelCtx parent ih => simpa [Context.Value] using ih h

theorem forContext_of_neverBound (ctx : Context) (h : NeverBound ctx) :
    ForContext ctx = Except.error missingClientPanic := by
  simp [ForContext, value_of_neverBound ctx h]

theorem forContext_bound (ctx : Context) (p : ClientPtr) :
    ForContext (Context.valueCtx ctx mongoClient (Iface.client p)) = Except.ok p := by
  simp [ForContext, Context.Value]

theorem withValue_mongoClient (ctx : Context) (v : Iface) :
    WithValue ctx mongoClient v = Except.ok (Context.valueCtx ctx mongoClient v) := by
  simp [WithValue, mongoClient]

theorem forContext_plain_string_key (ctx : Context) (v : Iface) :
    ForContext (Context.valueCtx ctx (Iface.str "mongo_client") v) = ForContext ctx := by
  simp [ForContext, Context.Value, mongoClient]

theorem pair_infix_append {α : Type} (a b : α) (l₁ l₂ : List α) :
    List.IsInfix [a, b] (l₁ ++ l₂) ↔
      List.IsInfix [a, b] l₁ ∨ List.IsInfix [a, b] l₂ ∨
        (l₁.getLast? = some a ∧ l₂.head? = some b) := by
  induction l₁ with
  | nil => simp
  | cons x xs ih =>
    rw [List.cons_append, List.infix_cons_iff, List.infix_cons_iff, ih]
    cases xs with
    | nil =>
      cases l₂ with
      | nil => simp
      | cons y ys =>
        simp [List.cons_prefix_cons]
        constructor
        · rintro (⟨rfl, rfl⟩ | h)
          · right; simp
          · left; exact h
        · rintro (h | ⟨rfl, rfl⟩)
          · right; exact h
          · left; simp
    | cons y ys =>
      simp [List.cons_prefix_cons, List.getLast?_cons_cons]
      tauto

theorem colon_at_in_plain_uri (h p : String) :
    HasSubstring ("mongodb://" ++ h ++ ":" ++ p) ":@" ↔
      HasSubstring h ":@" ∨ HasSubstring p ":@" ∨ p.toList.head? = some '@' := by
  have e : ("mongodb://" ++ h ++ ":" ++ p).toList
      = (("mongodb://".toList ++ h.toList) ++ [':']) ++ p.toList := by
    simp [String.toList]
  have e2 : (":@" : String).toList = [':', '@'] := rfl
  have n1 : ¬ List.IsInfix [':', '@'] "mongodb://".toList := by decide
  have n2 : ¬ List.IsInfix [':', '@'] [':'] := by decide
  have n3 : "mongodb://".toList.getLast? ≠ some ':' := by decide
  have n4 : (("mongodb://".toList ++ h.toList) ++ [':']).getLast? = some ':' :=
    List.getLast?_concat _
  have n5 : ("mongodb://".toList ++ h.toList).getLast? = some ':' ∧ [':'].head? = some '@'
      ↔ False := by
    simp
  unfold HasSubstring
  rw [e, e2, pair_infix_append, pair_infix_append, pair_infix_append, n4, n5]
  simp only [n1, n2, false_or, or_false, true_and]
  simp [n3, or_assoc]

theorem no_colon_at_of_no_at (h p : String) (hh : '@' ∉ h.toList) (hp : '@' ∉ p.toList) :
    ¬ HasSubstring ("mongodb://" ++ h ++ ":" ++ p) ":@" := by
  rw [colon_at_in_plain_uri]
  have m : '@' ∈ (":@" : String).toList := by decide
  rintro (c | c | c)
  · exact hh (List.IsInfix.mem m c)
  · exact hp (List.IsInfix.mem m c)
  · exact hp (List.mem_of_mem_head? c)

/-! ## The connection string (claims C1, C2, C6, C7) -/

/-- C1, as stated, fails when `mongo_url` is empty: for host "db", port
"27017", user "a", password "b" the factory returns the nil connection at its
first statement and hands no connection string to the driver at all. -/
theorem C1_unset_url_hands_no_uri :
    (NewMongoDatabase sampleConstants reachableDriver
        { MongoURL := "", DBHost := "db", DBPort := "27017", DBUser := "a", DBPass := "b" }
        []).uri = none
    ∧ (NewMongoDatabase sampleConstants reachableDriver
        { MongoURL := "", DBHost := "db", DBPort := "27017", DBUser := "a", DBPass := "b" }
        []).uri ≠ some "mongodb://a:b@db:27017"
    ∧ (NewMongoDatabase sampleConstants reachableDriver
        { MongoURL := "", DBHost := "db", DBPort := "27017", DBUser := "a", DBPass := "b" }
        []).result = Result.returned none none := by
  decide

/-- C1 (amended): for every configuration whose `mongo_url` is non-empty and
whose user and password are both non-empty, the connection string handed to
the driver is exactly "mongodb://" ++ user ++ ":" ++ pass ++ "@" ++ host ++ ":"
++ port, with host and port taken after `DefaultIfEmpty` substitution. -/
theorem C1_uri_with_credentials (k : Constants) (drv : Driver) (t : Target) (lc : List Hook)
    (hurl : t.MongoURL ≠ "") (hu : t.DBUser ≠ "") (hp : t.DBPass ≠ "") :
    (NewMongoDatabase k drv t lc).uri
      = some ("mongodb://" ++ t.DBUser ++ ":" ++ t.DBPass ++ "@"
          ++ DefaultIfEmpty t.DBHost k.DBHost ++ ":" ++ DefaultIfEmpty t.DBPort k.DBPort) := by
  rw [uri_of_configured k drv t lc hurl, mongodbURI_with_credentials k t hu hp]

/-- C1 at host "db", port "27017", user "a", password "b" with `mongo_url`
set: the driver receives "mongodb://a:b@db:27017". -/
theorem C1_uri_with_credentials_witness :
    (NewMongoDatabase sampleConstants reachableDriver
        { MongoURL := "mongodb://db:27017", DBHost := "db", DBPort := "27017",
          DBUser := "a", DBPass := "b" } []).uri
      = some "mongodb://a:b@db:27017" :=
  (C1_uri_with_credentials sampleConstants reachableDriver
      { MongoURL := "mongodb://db:27017", DBHost := "db", DBPort := "27017",
        DBUser := "a", DBPass := "b" } [] (by decide) (by decide) (by decide)).trans
    (by decide)

/-- C2, as stated, fails in two ways: with `mongo_url` empty no connection
string is built at all, and with `mongo_url` set, empty credentials and the
port "@27017" the string handed to the driver is "mongodb://db:@27017", which
contains ":@". -/
theorem C2_unset_url_or_at_sign_port :
    (NewMongoDatabase sampleConstants reachableDriver
        { MongoURL := "", DBHost := "db", DBPort := "27017", DBUser := "", DBPass := "" }
        []).uri = none
    ∧ (NewMongoDatabase sampleConstants reachableDriver
        { MongoURL := "mongodb://db", DBHost := "db", DBPort := "@27017", DBUser := "",
          DBPass := "" } []).uri = some "mongodb://db:@27017"
    ∧ HasSubstring "mongodb://db:@27017" ":@" := by
  decide

/-- C2 (amended): for every configuration whose `mongo_url` is non-empty and
in which user or password is empty, the connection string handed to the driver
carries no credentials: it is "mongodb://" ++ host ++ ":" ++ port with host and
port after `DefaultIfEmpty` substitution.  It contains ":@" exactly when that
host or port contains ":@" or that port begins with '@'; in particular it
never does when neither contains the character '@'. -/
theorem C2_uri_without_credentials (k : Constants) (drv : Driver) (t : Target) (lc : List Hook)
    (hurl : t.MongoURL ≠ "") (h : t.DBUser = "" ∨ t.DBPass = "") :
    (NewMongoDatabase k drv t lc).uri
        = some ("mongodb://" ++ DefaultIfEmpty t.DBHost k.DBHost ++ ":"
            ++ DefaultIfEmpty t.DBPort k.DBPort)
    ∧ (HasSubstring ("mongodb://" ++ DefaultIfEmpty t.DBHost k.DBHost ++ ":"
            ++ DefaultIfEmpty t.DBPort k.DBPort) ":@"
        ↔ HasSubstring (DefaultIfEmpty t.DBHost k.DBHost) ":@"
          ∨ HasSubstring (DefaultIfEmpty t.DBPort k.DBPort) ":@"
          ∨ (DefaultIfEmpty t.DBPort k.DBPort).toList.head? = some '@')
    ∧ ('@' ∉ (DefaultIfEmpty t.DBHost k.DBHost).toList →
        '@' ∉ (DefaultIfEmpty t.DBPort k.DBPort).toList →
        ¬ HasSubstring ("mongodb://" ++ DefaultIfEmpty t.DBHost k.DBHost ++ ":"
            ++ DefaultIfEmpty t.DBPort k.DBPort) ":@") := by
  refine ⟨?_, colon_at_in_plain_uri _ _, no_colon_at_of_no_at _ _⟩
  rw [uri_of_configured k drv t lc hurl, mongodbURI_without_credentials k t h]

/-- C2 at host "db", port "27017", empty user and password with `mongo_url`
set: the driver receives "mongodb://db:27017", which has no ":@". -/
theorem C2_uri_without_credentials_witness :
    (NewMongoDatabase sampleConstants reachableDriver
        { MongoURL := "mongodb://db:27017", DBHost := "db", DBPort := "27017",
          DBUser := "", DBPass := "" } []).uri
      = some "mongodb://db:27017"
    ∧ ¬ HasSubstring "mongodb://db:27017" ":@" :=
  ⟨(C2_uri_without_credentials sampleConstants reachableDriver
      { MongoURL := "mongodb://db:27017", DBHost := "db", DBPort := "27017",
        DBUser := "", DBPass := "" } [] (by decide) (by decide)).1.trans (by decide),
   by decide⟩

/-- C6, as stated, fails: with `mongo_url` "mongodb://remote:9999", host "db",
port "27017" and no credentials the driver receives "mongodb://db:27017", not
`mongo_url`, and changing only the host to "db2" changes the string. -/
theorem C6_url_is_not_dialled :
    (NewMongoDatabase sampleConstants reachableDriver
        { MongoURL := "mongodb://remote:9999", DBHost := "db", DBPort := "27017",
          DBUser := "", DBPass := "" } []).uri = some "mongodb://db:27017"
    ∧ (NewMongoDatabase sampleConstants reachableDriver
        { MongoURL := "mongodb://remote:9999", DBHost := "db", DBPort := "27017",
          DBUser := "", DBPass := "" } []).uri ≠ some "mongodb://remote:9999"
    ∧ (NewMongoDatabase sampleConstants reachableDriver
        { MongoURL := "mongodb://remote:9999", DBHost := "db2", DBPort := "27017",
          DBUser := "", DBPass := "" } []).uri = some "mongodb://db2:27017" := by
  decide

/-- C6 (amended): for every configuration in which `mongo_url` is non-empty,
the connection string handed to the driver is the one built from host, port,
user and password (host and port after `DefaultIfEmpty` substitution, the
credentials left out when user or password is empty); it does not depend on
the value of `mongo_url`: any other configuration with a non-empty `mongo_url`
and the same host, port, user and password hands the same string. -/
theorem C6_uri_ignores_url_value (k : Constants) (drv : Driver) (t : Target) (lc : List Hook)
    (hurl : t.MongoURL ≠ "") :
    (NewMongoDatabase k drv t lc).uri
        = some (if t.DBUser = "" ∨ t.DBPass = "" then
            "mongodb://" ++ DefaultIfEmpty t.DBHost k.DBHost ++ ":"
              ++ DefaultIfEmpty t.DBPort k.DBPort
          else
            "mongodb://" ++ t.DBUser ++ ":" ++ t.DBPass ++ "@"
              ++ DefaultIfEmpty t.DBHost k.DBHost ++ ":" ++ DefaultIfEmpty t.DBPort k.DBPort)
    ∧ ∀ (drv2 : Driver) (t2 : Target) (lc2 : List Hook), t2.MongoURL ≠ "" →
        t2.DBHost = t.DBHost → t2.DBPort = t.DBPort →
        t2.DBUser = t.DBUser → t2.DBPass = t.DBPass →
        (NewMongoDatabase k drv2 t2 lc2).uri = (NewMongoDatabase k drv t lc).uri := by
  constructor
  · rw [uri_of_configured k drv t lc hurl]
    rfl
  · intro drv2 t2 lc2 h2 hh hp hu hw
    rw [uri_of_configured k drv t lc hurl, uri_of_configured k drv2 t2 lc2 h2]
    simp [mongodbURI, hh, hp, hu, hw]

/-- C6 at `mongo_url` "mongodb://remote:9999", host "db", port "27017", user
"a", password "b": the driver receives "mongodb://a:b@db:27017". -/
theorem C6_uri_ignores_url_value_witness :
    (NewMongoDatabase sampleConstants reachableDriver
        { MongoURL := "mongodb://remote:9999", DBHost := "db", DBPort := "27017",
          DBUser := "a", DBPass := "b" } []).uri
      = some "mongodb://a:b@db:27017" :=
  (C6_uri_ignores_url_value sampleConstants reachableDriver
      { MongoURL := "mongodb://remote:9999", DBHost := "db", DBPort := "27017",
        DBUser := "a", DBPass := "b" } [] (by decide)).1.trans (by decide)

/-- C7, as stated, fails: with `mongo_url`, host and port all empty the
factory substitutes nothing and builds no connection string; the driver is
never called, no hook is registered and the nil connection is returned
without error. -/
theorem C7_unset_url_builds_nothing :
    NewMongoDatabase sampleConstants reachableDriver
        { MongoURL := "", DBHost := "", DBPort := "", DBUser := "", DBPass := "" } []
      = { uri := none, lc := [], stdout := [], result := Result.returned none none } := by
  decide

/-- C7 (amended): for a configuration in which host and port are empty, when
`mongo_url` is non-empty the factory substitutes the built-in default host and
port and builds the connection string from them, user and password being used
as configured, with no default; when `mongo_url` is empty it builds no
connection string and returns the nil connection with no error. -/
theorem C7_defaults_only_when_url_set (k : Constants) (drv : Driver) (t : Target)
    (lc : List Hook) (hh : t.DBHost = "") (hp : t.DBPort = "") :
    (t.MongoURL ≠ "" →
      (NewMongoDatabase k drv t lc).uri
        = some (if t.DBUser = "" ∨ t.DBPass = "" then
            "mongodb://" ++ k.DBHost ++ ":" ++ k.DBPort
          else
            "mongodb://" ++ t.DBUser ++ ":" ++ t.DBPass ++ "@" ++ k.DBHost ++ ":" ++ k.DBPort))
    ∧ (t.MongoURL = "" →
      NewMongoDatabase k drv t lc
        = { uri := none, lc := lc, stdout := [], result := Result.returned none none }) := by
  constructor
  · intro hurl
    rw [uri_of_configured k drv t lc hurl]
    simp [mongodbURI, DefaultIfEmpty, hh, hp]
  · exact run_of_unconfigured k drv t lc

/-- C7 at `mongo_url` "mongodb://x", empty host, port, user and password,
with the defaults "localhost" and "27017": the driver receives
"mongodb://localhost:27017". -/
theorem C7_defaults_only_when_url_set_witness :
    (NewMongoDatabase sampleConstants reachableDriver
        { MongoURL := "mongodb://x", DBHost := "", DBPort := "", DBUser := "", DBPass := "" }
        []).uri
      = some "mongodb://localhost:27017" :=
  ((C7_defaults_only_when_url_set sampleConstants reachableDriver
      { MongoURL := "mongodb://x", DBHost := "", DBPort := "", DBUser := "", DBPass := "" }
      [] rfl rfl).1 (by decide)).trans (by decide)

/-! ## Binding and resolving (claims C3, C4, C5, C10) -/

/-- C3: for every context and every non-nil connection `m`, `WithContext`
returns a context without panicking, and `ForContext` on that context returns,
without panicking, the very client `m.Client()` that `m` wraps. -/
theorem C3_bind_then_resolve (ctx : Context) (m : Connection) :
    ∃ ctx1 logs, Connection.WithContext (some m) ctx = Except.ok (ctx1, logs)
      ∧ ForContext ctx1 = Except.ok m.Client := by
  refine ⟨Context.valueCtx ctx mongoClient (Iface.client m.client), [], ?_, ?_⟩
  · simp [Connection.WithContext, withValue_mongoClient]
  · exact forContext_bound ctx m.client

/-- C4: on every context on whose chain nothing is stored under the key
`mongoClient`, `ForContext` panics with "ctx passing is not contain mongodb
client"; it neither fails otherwise nor returns a client. -/
theorem C4_unbound_context_panics (ctx : Context) (h : NeverBound ctx) :
    ForContext ctx = Except.error "ctx passing is not contain mongodb client" :=
  forContext_of_neverBound ctx h

/-- C4 on a cancellable context that carries an unrelated value under another
key of type `key`. -/
theorem C4_unbound_context_panics_witness :
    ForContext (Context.valueCtx (Context.cancelCtx Context.emptyCtx)
        (Iface.key "request_id") (Iface.other 0 42))
      = Except.error "ctx passing is not contain mongodb client" :=
  C4_unbound_context_panics _ (by decide)

/-- C5, as stated, fails: binding the nil connection on the empty context
succeeds, but resolving the result panics with the missing-binding panic, the
very outcome `ForContext` has on the empty context itself; no separate
"connection not configured" condition is reported. -/
theorem C5_nil_bind_resolves_as_unbound :
    Connection.WithContext none Context.emptyCtx
        = Except.ok (Context.emptyCtx, ["Warning: Connection is nil"])
    ∧ ForContext Context.emptyCtx
        = Except.error "ctx passing is not contain mongodb client" :=
  ⟨rfl, rfl⟩

/-- C5 (amended): binding the nil connection with `WithContext` succeeds; it
logs "Warning: Connection is nil" and returns the context it was given, so
resolving the result with `ForContext` gives exactly what `ForContext` gives on
the original context, and on a context that was never bound that is the
missing-binding panic itself. -/
theorem C5_nil_bind_keeps_context (ctx : Context) :
    ∃ ctx1 logs, Connection.WithContext none ctx = Except.ok (ctx1, logs)
      ∧ ctx1 = ctx
      ∧ logs = ["Warning: Connection is nil"]
      ∧ ForContext ctx1 = ForContext ctx
      ∧ (NeverBound ctx →
          ForContext ctx1 = Except.error "ctx passing is not contain mongodb client") :=
  ⟨ctx, [nilConnectionWarning], rfl, rfl, rfl, rfl, forContext_of_neverBound ctx⟩

/-- C10: the key `mongoClient` does not collide with the plain string
"mongo_client".  Storing any value, even a `*mongo.Client`, under the plain
string key leaves the result of `ForContext` unchanged: on a context never
bound it is still the missing-binding panic, and after a bind of a non-nil
connection it is still that connection's client. -/
theorem C10_plain_string_key_is_distinct (ctx : Context) (v : Iface) :
    ∃ ctx1, WithValue ctx (Iface.str "mongo_client") v = Except.ok ctx1
      ∧ ForContext ctx1 = ForContext ctx
      ∧ (NeverBound ctx → NeverBound ctx1
          ∧ ForContext ctx1 = Except.error "ctx passing is not contain mongodb client")
      ∧ ∀ m : Connection, ∃ ctx2 logs ctx3,
          Connection.WithContext (some m) ctx = Except.ok (ctx2, logs)
          ∧ WithValue ctx2 (Iface.str "mongo_client") v = Except.ok ctx3
          ∧ ForContext ctx3 = Except.ok m.Client := by
  refine ⟨Context.valueCtx ctx (Iface.str "mongo_client") v, by simp [WithValue],
    forContext_plain_string_key ctx v, ?_, ?_⟩
  · intro h
    have hb : NeverBound (Context.valueCtx ctx (Iface.str "mongo_client") v) :=
      ⟨by simp [mongoClient], h⟩
    exact ⟨hb, forContext_of_neverBound _ hb⟩
  · intro m
    refine ⟨Context.valueCtx ctx mongoClient (Iface.client m.client), [],
      Context.valueCtx (Context.valueCtx ctx mongoClient (Iface.client m.client))
        (Iface.str "mongo_client") v, ?_, by simp [WithValue], ?_⟩
    · simp [Connection.WithContext, withValue_mongoClient]
    · rw [forContext_plain_string_key]
      exact forContext_bound ctx m.client

/-- C10 with a client stored under the plain string key on the empty context:
`ForContext` still panics; stored after a bind of the connection wrapping the
client at address 1, `ForContext` still returns that client. -/
theorem C10_plain_string_key_is_distinct_witness :
    ForContext (Context.valueCtx Context.emptyCtx (Iface.str "mongo_client")
        (Iface.client (some 7)))
      = Except.error "ctx passing is not contain mongodb client"
    ∧ ForContext (Context.valueCtx
        (Context.valueCtx Context.emptyCtx mongoClient (Iface.client (some 1)))
        (Iface.str "mongo_client") (Iface.client (some 7)))
      = Except.ok (some 1) := by
  obtain ⟨ctx1, h1, _, h3, _⟩ :=
    C10_plain_string_key_is_distinct Context.emptyCtx (Iface.client (some 7))
  have e : ctx1 = Context.valueCtx Context.emptyCtx (Iface.str "mongo_client")
      (Iface.client (some 7)) := by
    simpa [WithValue] using h1.symm
  subst e
  exact ⟨(h3 True.intro).2, rfl⟩

/-! ## The middleware (claim C8) -/

/-- C8: on every gin context the handler returned by `Connect` ends without
panicking and calls `c.Next()` exactly once.  With a non-nil connection the
request seen downstream is the original request with only its context
replaced, and `ForContext` on that context returns the connection's client;
with the nil connection the gin context is left as it was and the request
seen downstream is the original request. -/
theorem C8_connect_calls_next_once (c : GinContext) :
    (∀ conn : Connection, ∃ c1 effects,
        Connection.Connect (some conn) c = Except.ok (c1, effects)
        ∧ nextCalls effects = 1
        ∧ ∀ r, Effect.next r ∈ effects →
            r = c1.Request
            ∧ ForContext r.ctx = Except.ok conn.Client
            ∧ r = c.Request.WithContext r.ctx)
    ∧ ∃ c1 effects,
        Connection.Connect none c = Except.ok (c1, effects)
        ∧ nextCalls effects = 1
        ∧ c1 = c
        ∧ ∀ r, Effect.next r ∈ effects → r = c.Request := by
  constructor
  · intro conn
    refine ⟨GinContext.mk (c.Request.WithContext
        (Context.valueCtx c.Request.ctx mongoClient (Iface.client conn.client))),
      [Effect.next (c.Request.WithContext
        (Context.valueCtx c.Request.ctx mongoClient (Iface.client conn.client)))], ?_, rfl, ?_⟩
    · simp [Connection.Connect, withValue_mongoClient]
    · intro r hr
      have e : r = c.Request.WithContext
          (Context.valueCtx c.Request.ctx mongoClient (Iface.client conn.client)) := by
        simpa using hr
      subst e
      exact ⟨rfl, forContext_bound c.Request.ctx conn.client, rfl⟩
  · refine ⟨c, [Effect.log nilConnectionWarning, Effect.next c.Request], rfl, rfl, rfl, ?_⟩
    intro r hr
    simpa using hr

/-! ## Fatal start-up failures (claim C9) -/

/-- C9: whenever the factory has called the driver and the connect step or
the ping that follows returns an error, the call ends in `log.Fatal` with
that error: nothing is returned to the caller and the lifecycle hooks are as
they were.  A non-nil connection is returned only when both connect and ping
succeeded, and it then wraps the client that connect returned. -/
theorem C9_driver_failure_is_fatal (k : Constants) (drv : Driver) (t : Target)
    (lc : List Hook) :
    (∀ u e, (NewMongoDatabase k drv t lc).uri = some u → drv.Connect u = Except.error e →
        (NewMongoDatabase k drv t lc).result = Result.fatal e
        ∧ (NewMongoDatabase k drv t lc).lc = lc)
    ∧ (∀ u client e, (NewMongoDatabase k drv t lc).uri = some u →
        drv.Connect u = Except.ok client → drv.Ping client = some e →
        (NewMongoDatabase k drv t lc).result = Result.fatal e
        ∧ (NewMongoDatabase k drv t lc).lc = lc)
    ∧ (∀ conn err, (NewMongoDatabase k drv t lc).result = Result.returned (some conn) err →
        ∃ u, (NewMongoDatabase k drv t lc).uri = some u
          ∧ drv.Connect u = Except.ok conn.client
          ∧ drv.Ping conn.client = none
          ∧ err = none) := by
  by_cases hurl : t.MongoURL = ""
  · rw [run_of_unconfigured k drv t lc hurl]
    simp
  · cases hc : drv.Connect (mongodbURI k t) with
    | error e0 =>
      rw [run_of_connect_error k drv t lc e0 hurl hc]
      refine ⟨?_, ?_, ?_⟩
      · intro u e hu he
        cases hu
        rw [hc] at he
        cases he
        exact ⟨rfl, rfl⟩
      · intro u client e hu he
        cases hu
        rw [hc] at he
        cases he
      · intro conn err h
        cases h
    | ok c0 =>
      cases hp : drv.Ping c0 with
      | some e0 =>
        rw [run_of_ping_error k drv t lc c0 e0 hurl hc hp]
        refine ⟨?_, ?_, ?_⟩
        · intro u e hu he
          cases hu
          rw [hc] at he
          cases he
        · intro u client e hu he hpe
          cases hu
          rw [hc] at he
          cases he
          rw [hp] at hpe
          cases hpe
          exact ⟨rfl, rfl⟩
        · intro conn err h
          cases h
      | none =>
        rw [run_of_connected k drv t lc c0 hurl hc hp]
        refine ⟨?_, ?_, ?_⟩
        · intro u e hu he
          cases hu
          rw [hc] at he
          cases he
        · intro u client e hu he hpe
          cases hu
          rw [hc] at he
          cases he
          rw [hp] at hpe
          cases hpe
        · intro conn err h
          cases h
          exact ⟨mongodbURI k t, rfl, hc, hp, rfl⟩

/-- C9 on a configured target: against a driver whose connect step fails and
against one whose ping fails the run is fatal and no hook is registered. -/
theorem C9_driver_failure_is_fatal_witness :
    ((NewMongoDatabase sampleConstants unreachableDriver
        { MongoURL := "mongodb://db:27017", DBHost := "db", DBPort := "27017",
          DBUser := "", DBPass := "" } []).result = Result.fatal "server selection error"
      ∧ (NewMongoDatabase sampleConstants unreachableDriver
        { MongoURL := "mongodb://db:27017", DBHost := "db", DBPort := "27017",
          DBUser := "", DBPass := "" } []).lc = [])
    ∧ (NewMongoDatabase sampleConstants silentDriver
        { MongoURL := "mongodb://db:27017", DBHost := "db", DBPort := "27017",
          DBUser := "", DBPass := "" } []).result = Result.fatal "context deadline exceeded" :=
  ⟨(C9_driver_failure_is_fatal sampleConstants unreachableDriver
      { MongoURL := "mongodb://db:27017", DBHost := "db", DBPort := "27017",
        DBUser := "", DBPass := "" } []).1 "mongodb://db:27017" "server selection error"
      (by decide) rfl,
   by decide⟩

end Mongo
